import Mathlib

/-!
Verification of the thorlabs MDT694B piezo-controller driver.

The driver is embedded shallowly:

* the wire layer models `Controller._send` (write the command plus a line
  feed, read until the prompt byte, strip the trailing prompts, check the
  input buffer is empty, check the device echo, and parse the payload
  lines) as pure functions over lists of characters;
* the connect layer models the verification sequence of
  `Controller.__init__` over the parsed replies of the four start-up
  commands;
* the session layer models `get_voltage`, `set_voltage` and
  `_finish_set_voltage` as a state machine over an explicit driver state,
  with the device abstracted as the stream of parsed voltage readings and
  the unbounded settle loop given explicit fuel.
-/

namespace MDT694B

/-- Python str.split with a one-character separator: cut the list at every
occurrence of `sep`, keeping empty pieces; the result is always nonempty. -/
def splitOnChar (sep : Char) : List Char → List (List Char)
  | [] => [[]]
  | c :: cs =>
    match splitOnChar sep cs with
    | [] => [[c]]
    | h :: t => if c = sep then [] :: h :: t else (c :: h) :: t

/-- Python str.rstrip with a one-character argument: drop every trailing
copy of `x`. -/
def rstripChar (x : Char) (l : List Char) : List Char :=
  (l.reverse.dropWhile (fun c => c = x)).reverse

/-- Python r.replace(lbracket, empty).replace(rbracket, empty): delete every
square bracket. -/
def removeBracketsChars (l : List Char) : List Char :=
  l.filter (fun c => !(c == '[' || c == ']'))

/-- Value of a list of decimal digit characters, most significant first. -/
def digitsToNat (l : List Char) : ℕ :=
  l.foldl (fun a c => 10 * a + (c.toNat - Char.toNat '0')) 0

/-- Python float() on an unsigned decimal literal: digits, optionally
followed by a point and more digits; at least one digit must be present. -/
def parseUnsigned (s : List Char) : Option ℚ :=
  let intPart := s.takeWhile Char.isDigit
  match s.dropWhile Char.isDigit with
  | [] => if intPart.isEmpty then none else some (digitsToNat intPart : ℚ)
  | '.' :: fracPart =>
    if fracPart.all Char.isDigit && !(intPart.isEmpty && fracPart.isEmpty) then
      some ((digitsToNat intPart : ℚ) +
        (digitsToNat fracPart : ℚ) / (10 : ℚ) ^ fracPart.length)
    else none
  | _ => none

/-- Python float() on a decimal literal with an optional sign. -/
def parseFloat (s : List Char) : Option ℚ :=
  match s with
  | '-' :: rest => (parseUnsigned rest).map (fun q => -q)
  | '+' :: rest => parseUnsigned rest
  | _ => parseUnsigned s

/-- Python int() on a string: an optional sign followed by decimal digits. -/
def parseIntStr (s : List Char) : Option ℤ :=
  match s with
  | '-' :: rest =>
    if !rest.isEmpty && rest.all Char.isDigit then
      some (-(digitsToNat rest : ℤ)) else none
  | '+' :: rest =>
    if !rest.isEmpty && rest.all Char.isDigit then
      some ((digitsToNat rest : ℤ)) else none
  | _ =>
    if !s.isEmpty && s.all Char.isDigit then
      some ((digitsToNat s : ℤ)) else none

/-- Round `q` times 100 to the nearest integer, ties to even — the rounding
used by printf-style float formatting — computed from the numerator and
denominator with integer arithmetic only. -/
def roundCenti (q : ℚ) : ℤ :=
  let a : ℤ := q.num * 100
  let b : ℤ := (q.den : ℤ)
  let f : ℤ := Int.fdiv a b
  let r : ℤ := a - f * b
  if 2 * r < b then f
  else if b < 2 * r then f + 1
  else if f % 2 = 0 then f else f + 1

/-- Decimal digit characters of a natural number. -/
def natToChars (n : ℕ) : List Char := Nat.toDigits 10 n

/-- Two-decimal fraction part, left padded with a zero. -/
def twoDigitChars (r : ℕ) : List Char :=
  if r < 10 then '0' :: natToChars r else natToChars r

/-- The format operation of the source, percent 0.2f on a rational: round
to centivolts and render with exactly two digits after the point. -/
def format2 (q : ℚ) : List Char :=
  let n := roundCenti q
  if n < 0 then
    '-' :: (natToChars (n.natAbs / 100) ++ '.' :: twoDigitChars (n.natAbs % 100))
  else natToChars (n.natAbs / 100) ++ '.' :: twoDigitChars (n.natAbs % 100)

/-- The distinct failure points of Controller._send: the two asserts, and
the echo-removal index that Python would turn into an IndexError. -/
inductive SendError where
  | bufferNotEmpty
  | echoMismatch
  | indexError
deriving DecidableEq

instance {ε α : Type} [DecidableEq ε] [DecidableEq α] : DecidableEq (Except ε α) := fun
  | .ok a, .ok b =>
    match decEq a b with
    | isTrue h => isTrue (by rw [h])
    | isFalse h => isFalse (fun hh => h (Except.ok.inj hh))
  | .error e, .error f =>
    match decEq e f with
    | isTrue h => isTrue (by rw [h])
    | isFalse h => isFalse (fun hh => h (Except.error.inj hh))
  | .ok _, .error _ => isFalse (fun hh => Except.noConfusion hh)
  | .error _, .ok _ => isFalse (fun hh => Except.noConfusion hh)

/-- The per-line payload processing of Controller._send: split the payload
on carriage returns, drop empty lines, optionally strip brackets. -/
def parsePayload (removeBrackets : Bool) (payload : List Char) : List (List Char) :=
  (splitOnChar '\r' payload).filterMap (fun r =>
    if r.isEmpty then none
    else some (if removeBrackets then removeBracketsChars r else r))

/-- Processing of the decoded response text in Controller._send after the
trailing prompt bytes are stripped: check that the first line equals the
sent command (device echo), take exactly the second line as payload — an
out-of-range index when no second line exists — and parse it. -/
def processResponse (cmd : List Char) (removeBrackets : Bool) (response : List Char) :
    Except SendError (List (List Char)) :=
  let lines := splitOnChar '\n' response
  if lines.head? = some cmd then
    match lines[1]? with
    | none => .error .indexError
    | some payload => .ok (parsePayload removeBrackets payload)
  else .error .echoMismatch

/-- Controller._send: `raw` is the decoded text returned by reading until
the prompt byte and `waiting` the number of bytes still unread immediately
afterwards; the input buffer must be empty before the response is
processed. -/
def sendRecv (cmd : List Char) (removeBrackets : Bool) (raw : List Char) (waiting : ℕ) :
    Except SendError (List (List Char)) :=
  if waiting ≠ 0 then .error .bufferNotEmpty
  else processResponse cmd removeBrackets (rstripChar '>' raw)

example : splitOnChar '\n' "ab\ncd".toList = ["ab".toList, "cd".toList] := by decide
example : rstripChar '>' "ab>>".toList = "ab".toList := by decide
example : parseIntStr "150".toList = some 150 := by decide
example : format2 0 = "0.00".toList := by decide
example : format2 2 = "2.00".toList := by decide
example : format2 (123 / 10) = "12.30".toList := by
  have hn : (123 / 10 : ℚ).num = 123 := by norm_num
  have hd : (123 / 10 : ℚ).den = 10 := by norm_num
  have h : roundCenti (123 / 10 : ℚ) = 1230 := by
    simp only [roundCenti, hn, hd]; decide
  simp only [format2, h]; decide
example : parseFloat "12.30".toList = some (123 / 10) := by
  have h : parseFloat "12.30".toList = some ((12 : ℚ) + 30 / 10 ^ 2) := rfl
  rw [h]; norm_num
example :
    sendRecv "xvoltage?".toList true "xvoltage?\n[12.30]\r>".toList 0 =
      .ok ["12.30".toList] := by decide

/-! ## The two framing strategies over an explicit device stream -/

/-- serial read_until the prompt byte: consume the stream up to and
including the first prompt character, returning the bytes read and the
bytes left unread. -/
def readUntilGt : List Char → List Char × List Char
  | [] => ([], [])
  | c :: cs =>
    if c = '>' then ([c], cs)
    else
      let p := readUntilGt cs
      (c :: p.1, p.2)

/-- The delimiter strategy of Controller._send run against a device whose
pending output is `stream`: read until the prompt, then frame-check and
parse, the bytes left unread being the ones a subsequent inWaiting call
would report. -/
def sendDelim (cmd : List Char) (removeBrackets : Bool) (stream : List Char) :
    Except SendError (List (List Char)) :=
  let p := readUntilGt stream
  sendRecv cmd removeBrackets p.1 p.2.length

/-- Modelled from the spec: the fixed-length framing strategy belongs to a
second file variant of this repository that is absent from the sources
given here. Per the spec it writes the command and reads exactly `n` bytes
— the known size of echo plus response — performs no echo comparison, the
shared empty-buffer invariant still applies, and the structured response is
recovered from the fixed-size read by the same decode: strip the trailing
prompt, drop the echo line whose length the byte count already encodes,
split the payload lines, drop empties, optionally strip brackets. -/
def sendFixed (_cmd : List Char) (removeBrackets : Bool) (n : ℕ) (stream : List Char) :
    Except SendError (List (List Char)) :=
  let raw := stream.take n
  let rest := stream.drop n
  if rest.length ≠ 0 then .error .bufferNotEmpty
  else
    let lines := splitOnChar '\n' (rstripChar '>' raw)
    match lines[1]? with
    | none => .error .indexError
    | some payload => .ok (parsePayload removeBrackets payload)

/-- The framing strategy a driver instance commits to at construction. -/
inductive Framing where
  | delimiter
  | fixedLength
deriving DecidableEq

/-- Dispatch one send/receive transaction through the strategy chosen at
construction time; `n` is the expected byte count, used only by the
fixed-length strategy. -/
def sendVia : Framing → List Char → Bool → ℕ → List Char → Except SendError (List (List Char))
  | .delimiter, cmd, rb, _, stream => sendDelim cmd rb stream
  | .fixedLength, cmd, rb, n, stream => sendFixed cmd rb n stream

/-! ## The connect-time verification sequence of Controller.__init__ -/

/-- The device-side state a successful connect hands back: the voltage
limit read from the device, the initial voltage reading, and the
pending-move marker. -/
structure Session where
  voltage_limit : ℤ
  voltage : ℚ
  pending_cmd : Option (List Char)
deriving DecidableEq

/-- Whether the serial port handle is open. -/
inductive PortStatus where
  | opened
  | closed
deriving DecidableEq

/-- The distinct failure points of Controller.__init__. In the source the
four mismatch cases are all AssertionError; they are distinguished here by
the failing check. -/
inductive InitError where
  | ioError          -- the serial port could not be opened
  | restoreMismatch  -- the restore acknowledgement line is wrong
  | idMismatch       -- the model identity line is wrong
  | firmwareMismatch -- the firmware version line is wrong
  | vlimitNotAllowed -- the voltage limit is outside (75, 100, 150)
  | indexError       -- a reply had fewer lines than the code indexes
  | valueError       -- int() or float() could not parse the reply
deriving DecidableEq

/-- Controller.__init__ with the transport abstracted: `openOk` is whether
the serial port opens, and the four lists are the parsed replies that
_send returns for restore, id?, vlimit? (bracket-stripped) and xvoltage?
(bracket-stripped). The second component is the state of the port handle
when __init__ returns or raises. -/
def controllerInit (openOk : Bool)
    (restoreR idR vlimitR xvoltR : List (List Char)) :
    Except InitError Session × PortStatus :=
  if openOk = false then (.error .ioError, .closed)
  else
    match restoreR[0]? with
    | none => (.error .indexError, .opened)
    | some r0 =>
      if r0 ≠ "All settings restored to default values.".toList then
        (.error .restoreMismatch, .opened)
      else
        match idR[0]? with
        | none => (.error .indexError, .opened)
        | some i0 =>
          if i0 ≠ "Model MDT694B Piezo Control Module".toList then
            (.error .idMismatch, .opened)
          else
            match idR[1]? with
            | none => (.error .indexError, .opened)
            | some i1 =>
              if i1 ≠ "Firmware Version: 1.10".toList then
                (.error .firmwareMismatch, .opened)
              else
                match vlimitR[0]? with
                | none => (.error .indexError, .opened)
                | some v0 =>
                  match parseIntStr v0 with
                  | none => (.error .valueError, .opened)
                  | some lim =>
                    if lim = 75 ∨ lim = 100 ∨ lim = 150 then
                      match xvoltR[0]? with
                      | none => (.error .indexError, .opened)
                      | some x0 =>
                        match parseFloat x0 with
                        | none => (.error .valueError, .opened)
                        | some volt => (.ok ⟨lim, volt, none⟩, .opened)
                    else (.error .vlimitNotAllowed, .opened)

/-- Whether connect handed back a usable session. -/
def initUsable : Except InitError Session → Bool
  | .ok _ => true
  | .error _ => false

/-- The parsed reply a conforming device gives to the restore command. -/
def restoreOk : List (List Char) :=
  ["All settings restored to default values.".toList]

/-- The parsed reply a conforming device gives to the identity query. -/
def idOk : List (List Char) :=
  ["Model MDT694B Piezo Control Module".toList, "Firmware Version: 1.10".toList]

/-! ## The session state machine -/

/-- The mutable driver state together with the observable interaction
trace: the voltage limit fixed at connect, the last stored voltage, the
pending set command, how many voltage readings have been consumed, every
command written to the transport in order, and how many times the settle
loop has slept. -/
@[ext]
structure DriverState where
  voltage_limit : ℤ
  voltage : ℚ
  pending_cmd : Option (List Char)
  readIdx : ℕ
  sent : List (List Char)
  slept : ℕ
deriving DecidableEq

/-- The voltage query command. -/
def xvoltageQuery : List Char := "xvoltage?".toList

/-- The set command for a target voltage, formatted to two decimals. -/
def setCmd (v : ℚ) : List Char := "xvoltage=".toList ++ format2 v

/-- Whether a wire command is a set command rather than a query. -/
def isSetCmd (c : List Char) : Bool := c.take 9 == "xvoltage=".toList

/-- Controller.get_voltage with printing off: send the voltage query,
store the parsed reading and return it. `env k` is the parsed value the
device reports for the k-th voltage query of the session. -/
def get_voltage (env : ℕ → ℚ) (s : DriverState) : ℚ × DriverState :=
  (env s.readIdx,
   { s with voltage := env s.readIdx,
            readIdx := s.readIdx + 1,
            sent := s.sent ++ [xvoltageQuery] })

/-- The while loop of Controller._finish_set_voltage with explicit fuel in
place of the unbounded while True: read, sleep, read again, stop when the
two consecutive readings agree. The flag is false when the fuel ran out
with the loop still spinning. -/
def settleLoop (env : ℕ → ℚ) : ℕ → DriverState → Bool × DriverState
  | 0, s => (false, s)
  | fuel + 1, s =>
    let p1 := get_voltage env s
    let s1 := { p1.2 with slept := p1.2.slept + 1 }
    let p2 := get_voltage env s1
    if p1.1 = p2.1 then (true, { p2.2 with voltage := p2.1 })
    else settleLoop env fuel p2.2

/-- Controller._finish_set_voltage: return at once when no command is
pending, otherwise poll until two consecutive readings agree, store the
settled reading and clear the pending command. The middle component is the
Python return value, which is None on every path of the source. -/
def finish_set_voltage (env : ℕ → ℚ) (fuel : ℕ) (s : DriverState) :
    Bool × Option ℚ × DriverState :=
  match s.pending_cmd with
  | none => (true, none, s)
  | some _ =>
    match settleLoop env fuel s with
    | (true, s1) => (true, none, { s1 with pending_cmd := none })
    | (false, s1) => (false, none, s1)

/-- How a call of Controller.set_voltage can end. -/
inductive SetOutcome where
  | ok (s : DriverState)          -- returned normally
  | assertRange (s : DriverState) -- AssertionError: requested voltage out of range
  | noFuel (s : DriverState)      -- a settle loop was still spinning at fuel exhaustion
deriving DecidableEq

/-- The driver state an outcome carries. -/
def SetOutcome.state : SetOutcome → DriverState
  | .ok s => s
  | .assertRange s => s
  | .noFuel s => s

/-- Whether the call returned normally. -/
def SetOutcome.isOk : SetOutcome → Bool
  | .ok _ => true
  | _ => false

/-- Whether the call raised the out-of-range assertion. -/
def SetOutcome.isAssertRange : SetOutcome → Bool
  | .assertRange _ => true
  | _ => false

/-- Controller.set_voltage: drain any pending move first, range-check the
target against the voltage limit, send the two-decimal set command, record
it as pending, and settle at once when block is true. -/
def set_voltage (env : ℕ → ℚ) (fuel : ℕ) (voltage : ℚ) (block : Bool)
    (s : DriverState) : SetOutcome :=
  let drained :=
    if s.pending_cmd = none then (true, (none : Option ℚ), s)
    else finish_set_voltage env fuel s
  if drained.1 = false then .noFuel drained.2.2
  else
    let s1 := drained.2.2
    if 0 ≤ voltage ∧ voltage ≤ (s1.voltage_limit : ℚ) then
      let cmd := setCmd voltage
      let s2 := { s1 with sent := s1.sent ++ [cmd], pending_cmd := some cmd }
      if block then
        let fin := finish_set_voltage env fuel s2
        if fin.1 = false then .noFuel fin.2.2 else .ok fin.2.2
      else .ok s2
    else .assertRange s1

/-- A freshly connected session with a 75 volt limit and nothing pending. -/
def demoState : DriverState :=
  { voltage_limit := 75, voltage := 0, pending_cmd := none,
    readIdx := 0, sent := [], slept := 0 }

/-- A session with a set command still pending. -/
def busyState : DriverState :=
  { voltage_limit := 75, voltage := 0, pending_cmd := some (setCmd 5),
    readIdx := 0, sent := [], slept := 0 }

example :
    initUsable (controllerInit true restoreOk idOk ["200".toList] ["0.00".toList]).1
      = false := by decide
example :
    (controllerInit true restoreOk idOk ["200".toList] ["0.00".toList]).1
      = .error .vlimitNotAllowed := by decide
example :
    (controllerInit true restoreOk idOk ["150".toList] ["0.00".toList]).2
      = .opened := by decide
example :
    initUsable (controllerInit true restoreOk idOk ["150".toList] ["0.00".toList]).1
      = true := by decide
example : finish_set_voltage (fun _ => 0) 3 demoState = (true, none, demoState) := by decide
example :
    (finish_set_voltage (fun _ => (5 : ℚ)) 1 busyState).2.2.pending_cmd = none := by decide
example : set_voltage (fun _ => 0) 1 200 false demoState = .assertRange demoState := by decide
example :
    (set_voltage (fun _ => 0) 1 2 false demoState).state.pending_cmd
      = some (setCmd 2) := by decide

/-! ## Helper lemmas -/

theorem splitOnChar_ne_nil (sep : Char) (l : List Char) : splitOnChar sep l ≠ [] := by
  cases l with
  | nil => simp [splitOnChar]
  | cons c cs =>
    simp only [splitOnChar]
    cases h : splitOnChar sep cs with
    | nil => simp
    | cons a t => by_cases hc : c = sep <;> simp [hc]

theorem splitOnChar_of_not_mem {sep : Char} {l : List Char} (h : sep ∉ l) :
    splitOnChar sep l = [l] := by
  induction l with
  | nil => rfl
  | cons c cs ih =>
    have hc : ¬c = sep := fun e => h (e ▸ List.mem_cons_self c cs)
    have hcs : sep ∉ cs := fun m => h (List.mem_cons_of_mem c m)
    simp only [splitOnChar, ih hcs]
    simp [hc]

theorem splitOnChar_append {sep : Char} {a : List Char} (rest : List Char)
    (h : sep ∉ a) :
    splitOnChar sep (a ++ sep :: rest) = a :: splitOnChar sep rest := by
  induction a with
  | nil =>
    simp only [List.nil_append, splitOnChar]
    cases hr : splitOnChar sep rest with
    | nil => exact absurd hr (splitOnChar_ne_nil sep rest)
    | cons b t => simp
  | cons c cs ih =>
    have hc : ¬c = sep := fun e => h (e ▸ List.mem_cons_self c cs)
    have hcs : sep ∉ cs := fun m => h (List.mem_cons_of_mem c m)
    simp only [List.cons_append, splitOnChar, List.append_eq]
    rw [ih hcs]
    simp [hc]

theorem dropWhile_eq_of_head {x : Char} {l : List Char} (h : x ∉ l) :
    l.dropWhile (fun c => c = x) = l := by
  cases l with
  | nil => rfl
  | cons c cs =>
    have hc : ¬c = x := fun e => h (e ▸ List.mem_cons_self c cs)
    simp [List.dropWhile, hc]

theorem rstripChar_of_not_mem {x : Char} {l : List Char} (h : x ∉ l) :
    rstripChar x l = l := by
  unfold rstripChar
  rw [dropWhile_eq_of_head (by simpa using h), List.reverse_reverse]

theorem rstripChar_append (x : Char) (l : List Char) :
    rstripChar x (l ++ [x]) = rstripChar x l := by
  unfold rstripChar
  simp [List.dropWhile]

theorem settleLoop_spec (env : ℕ → ℚ) :
    ∀ (k fuel : ℕ) (s : DriverState), k < fuel →
      env (s.readIdx + 2 * k) = env (s.readIdx + 2 * k + 1) →
      (∀ i, i < k → env (s.readIdx + 2 * i) ≠ env (s.readIdx + 2 * i + 1)) →
      settleLoop env fuel s =
        (true,
         { s with voltage := env (s.readIdx + 2 * k + 1),
                  readIdx := s.readIdx + 2 * k + 2,
                  sent := s.sent ++ List.replicate (2 * k + 2) xvoltageQuery,
                  slept := s.slept + (k + 1) }) := by
  intro k
  induction k with
  | zero =>
    intro fuel s hf hs _
    obtain ⟨f, rfl⟩ : ∃ f, fuel = f + 1 := ⟨fuel - 1, by omega⟩
    simp only [Nat.mul_zero, Nat.add_zero] at hs
    simp only [settleLoop, get_voltage]
    rw [if_pos hs]
    refine congrArg (Prod.mk true) ?_
    ext <;> simp [List.replicate_succ]
  | succ k ih =>
    intro fuel s hf hs hne
    obtain ⟨f, rfl⟩ : ∃ f, fuel = f + 1 := ⟨fuel - 1, by omega⟩
    have h0 : env s.readIdx ≠ env (s.readIdx + 1) := by
      have := hne 0 (Nat.succ_pos k)
      simpa using this
    have hk : k < f := by omega
    have h1 : env (s.readIdx + 1 + 1 + 2 * k) = env (s.readIdx + 1 + 1 + 2 * k + 1) := by
      rw [show s.readIdx + 1 + 1 + 2 * k = s.readIdx + 2 * (k + 1) from by ring]
      exact hs
    have h2 : ∀ i, i < k →
        env (s.readIdx + 1 + 1 + 2 * i) ≠ env (s.readIdx + 1 + 1 + 2 * i + 1) := by
      intro i hi
      have := hne (i + 1) (by omega)
      rw [show s.readIdx + 2 * (i + 1) = s.readIdx + 1 + 1 + 2 * i from by ring] at this
      exact this
    simp only [settleLoop, get_voltage]
    rw [if_neg h0]
    refine (ih f _ hk h1 h2).trans ?_
    refine congrArg (Prod.mk true) ?_
    have hrep : List.replicate (2 * (k + 1) + 2) xvoltageQuery =
        xvoltageQuery :: xvoltageQuery :: List.replicate (2 * k + 2) xvoltageQuery := by
      rw [show 2 * (k + 1) + 2 = 2 * k + 2 + 1 + 1 from by ring]
      simp [List.replicate_succ]
    ext <;> simp [hrep] <;> first
      | omega
      | exact congrArg env (by omega)

theorem settleLoop_frame (env : ℕ → ℚ) :
    ∀ (fuel : ℕ) (s : DriverState),
      (settleLoop env fuel s).2.voltage_limit = s.voltage_limit ∧
      (settleLoop env fuel s).2.pending_cmd = s.pending_cmd ∧
      ∃ n, (settleLoop env fuel s).2.sent = s.sent ++ List.replicate n xvoltageQuery := by
  intro fuel
  induction fuel with
  | zero => exact fun s => ⟨rfl, rfl, 0, by simp [settleLoop]⟩
  | succ fuel ih =>
    intro s
    simp only [settleLoop, get_voltage]
    split
    · exact ⟨rfl, rfl, 2, by simp [List.replicate_succ]⟩
    · obtain ⟨h1, h2, n, h3⟩ := ih
        { s with voltage := env (s.readIdx + 1),
                 readIdx := s.readIdx + 1 + 1,
                 sent := s.sent ++ [xvoltageQuery] ++ [xvoltageQuery],
                 slept := s.slept + 1 }
      refine ⟨by rw [h1], by rw [h2], n + 2, ?_⟩
      rw [h3]
      rw [show n + 2 = 2 + n from by ring, List.replicate_add]
      simp [List.replicate_succ]

theorem finish_frame {env : ℕ → ℚ} {fuel : ℕ} {s : DriverState}
    {b : Bool} {r : Option ℚ} {s1 : DriverState}
    (h : finish_set_voltage env fuel s = (b, r, s1)) :
    r = none ∧ s1.voltage_limit = s.voltage_limit ∧
      ∃ n, s1.sent = s.sent ++ List.replicate n xvoltageQuery := by
  unfold finish_set_voltage at h
  cases hp : s.pending_cmd with
  | none =>
    rw [hp] at h
    obtain ⟨rfl, rfl, rfl⟩ : b = true ∧ r = none ∧ s1 = s := by
      refine ⟨?_, ?_, ?_⟩ <;> cases h <;> rfl
    exact ⟨rfl, rfl, 0, by simp⟩
  | some c =>
    rw [hp] at h
    obtain ⟨hl1, hl2, n, hl3⟩ := settleLoop_frame env fuel s
    cases hsl : settleLoop env fuel s with
    | mk flag st =>
      rw [hsl] at h hl1 hl2 hl3
      cases flag
      · obtain ⟨rfl, rfl, rfl⟩ : b = false ∧ r = none ∧ s1 = st := by
          refine ⟨?_, ?_, ?_⟩ <;> cases h <;> rfl
        exact ⟨rfl, hl1, n, hl3⟩
      · obtain ⟨rfl, rfl, rfl⟩ : b = true ∧ r = none ∧ s1 = { st with pending_cmd := none } := by
          refine ⟨?_, ?_, ?_⟩ <;> cases h <;> rfl
        exact ⟨rfl, hl1, n, hl3⟩

theorem finish_of_no_pending (env : ℕ → ℚ) (fuel : ℕ) (s : DriverState)
    (h : s.pending_cmd = none) :
    finish_set_voltage env fuel s = (true, none, s) := by
  unfold finish_set_voltage
  rw [h]

theorem finish_of_settling (env : ℕ → ℚ) (fuel k : ℕ) (s : DriverState)
    (c : List Char)
    (hp : s.pending_cmd = some c) (hf : k < fuel)
    (hs : env (s.readIdx + 2 * k) = env (s.readIdx + 2 * k + 1))
    (hne : ∀ i, i < k → env (s.readIdx + 2 * i) ≠ env (s.readIdx + 2 * i + 1)) :
    finish_set_voltage env fuel s =
      (true, none,
       { s with voltage := env (s.readIdx + 2 * k + 1),
                pending_cmd := none,
                readIdx := s.readIdx + 2 * k + 2,
                sent := s.sent ++ List.replicate (2 * k + 2) xvoltageQuery,
                slept := s.slept + (k + 1) }) := by
  unfold finish_set_voltage
  rw [hp, settleLoop_spec env k fuel s hf hs hne]

theorem filter_isSetCmd_queries (l : List (List Char)) (n : ℕ) :
    (l ++ List.replicate n xvoltageQuery).filter isSetCmd = l.filter isSetCmd := by
  rw [List.filter_append]
  have h : (List.replicate n xvoltageQuery).filter isSetCmd = [] := by
    induction n with
    | zero => rfl
    | succ n ih =>
      rw [List.replicate_succ, List.filter_cons]
      have : isSetCmd xvoltageQuery = false := by decide
      simp [this, ih]
  rw [h, List.append_nil]

theorem readUntilGt_append {l : List Char} (rest : List Char) (h : '>' ∉ l) :
    readUntilGt (l ++ '>' :: rest) = (l ++ ['>'], rest) := by
  induction l with
  | nil => simp [readUntilGt]
  | cons c cs ih =>
    have hc : ¬c = '>' := fun e => h (e ▸ List.mem_cons_self c cs)
    have hcs : '>' ∉ cs := fun m => h (List.mem_cons_of_mem c m)
    simp [readUntilGt, hc, ih hcs]

/-! ## Claim theorems -/

/-- C7: whenever no PendingMove exists, the finish routine is a no-op: it
returns immediately with the None return value, performs no transport I/O,
and leaves CurrentVoltage and all other session state unchanged. -/
theorem finish_noop (env : ℕ → ℚ) (fuel : ℕ) (s : DriverState)
    (h : s.pending_cmd = none) :
    finish_set_voltage env fuel s = (true, none, s) :=
  finish_of_no_pending env fuel s h

theorem finish_noop_witness :
    demoState.pending_cmd = none ∧
      finish_set_voltage (fun _ => 0) 5 demoState = (true, none, demoState) :=
  ⟨rfl, finish_noop (fun _ => 0) 5 demoState rfl⟩

/-- C3 (amended): when a PendingMove exists, the finish routine repeatedly
reads the voltage, waits the poll interval, reads again, and stops at the
first iteration whose two consecutive readings are equal; on settling it
stores the final reading in CurrentVoltage and clears the PendingMove, but
it returns None — the settled value is recorded in CurrentVoltage, not
returned. -/
theorem finish_settles (env : ℕ → ℚ) (fuel k : ℕ) (s : DriverState)
    (c : List Char)
    (hp : s.pending_cmd = some c) (hf : k < fuel)
    (hs : env (s.readIdx + 2 * k) = env (s.readIdx + 2 * k + 1))
    (hne : ∀ i, i < k → env (s.readIdx + 2 * i) ≠ env (s.readIdx + 2 * i + 1)) :
    finish_set_voltage env fuel s =
      (true, none,
       { s with voltage := env (s.readIdx + 2 * k + 1),
                pending_cmd := none,
                readIdx := s.readIdx + 2 * k + 2,
                sent := s.sent ++ List.replicate (2 * k + 2) xvoltageQuery,
                slept := s.slept + (k + 1) }) :=
  finish_of_settling env fuel k s c hp hf hs hne

theorem finish_settles_witness :
    busyState.pending_cmd = some (setCmd 5) ∧
      finish_set_voltage (fun _ => (5 : ℚ)) 1 busyState =
        (true, none,
         { busyState with voltage := 5, pending_cmd := none, readIdx := 2,
                          sent := [xvoltageQuery, xvoltageQuery], slept := 1 }) :=
  ⟨rfl, finish_settles (fun _ => (5 : ℚ)) 1 0 busyState (setCmd 5) rfl
    (by decide) rfl (fun i hi => absurd hi (Nat.not_lt_zero i))⟩

/-- C3 counterexample: on a concrete pending move that settles at 5 volts,
the finish routine stores 5 in CurrentVoltage but its return value is None,
not the settled voltage value. -/
theorem finish_returns_none_cex :
    (finish_set_voltage (fun _ => (5 : ℚ)) 1 busyState).2.1 = none ∧
    (finish_set_voltage (fun _ => (5 : ℚ)) 1 busyState).2.2.voltage = 5 ∧
    (finish_set_voltage (fun _ => (5 : ℚ)) 1 busyState).2.1 ≠
      some (finish_set_voltage (fun _ => (5 : ℚ)) 1 busyState).2.2.voltage :=
  ⟨rfl, by decide, by decide⟩

/-- C8: encoding the target voltage 12.3 produces exactly the wire command
xvoltage=12.30, and parsing the bracket-wrapped reply [12.30] — bracket
stripping followed by float conversion — yields the value 12.3. -/
theorem roundtrip_12_30 :
    setCmd (123 / 10) = "xvoltage=12.30".toList ∧
    removeBracketsChars "[12.30]".toList = "12.30".toList ∧
    parseFloat (removeBracketsChars "[12.30]".toList) = some (123 / 10) := by
  refine ⟨?_, by decide, ?_⟩
  · have hn : (123 / 10 : ℚ).num = 123 := by norm_num
    have hd : (123 / 10 : ℚ).den = 10 := by norm_num
    have h : roundCenti (123 / 10 : ℚ) = 1230 := by
      simp only [roundCenti, hn, hd]; decide
    simp only [setCmd, format2, h]; decide
  · have h : parseFloat (removeBracketsChars "[12.30]".toList) =
        some ((12 : ℚ) + 30 / 10 ^ 2) := rfl
    rw [h]; norm_num

/-- C6: under the delimiter framing, the send routine fails with the
buffer-not-empty error when unread bytes remain after the read, fails with
the echo-mismatch error when the first decoded line differs from the sent
command, and raises neither of those errors when the buffer is empty and
the echo matches. -/
theorem send_framing_checks (cmd : List Char) (rb : Bool) (raw : List Char)
    (waiting : ℕ) :
    (waiting ≠ 0 → sendRecv cmd rb raw waiting = .error .bufferNotEmpty) ∧
    (waiting = 0 → (splitOnChar '\n' (rstripChar '>' raw)).head? ≠ some cmd →
      sendRecv cmd rb raw waiting = .error .echoMismatch) ∧
    (waiting = 0 → (splitOnChar '\n' (rstripChar '>' raw)).head? = some cmd →
      sendRecv cmd rb raw waiting ≠ .error .echoMismatch ∧
      sendRecv cmd rb raw waiting ≠ .error .bufferNotEmpty) := by
  unfold sendRecv processResponse
  refine ⟨fun hw => by rw [if_pos hw], fun hw hecho => ?_, fun hw hecho => ?_⟩
  · rw [if_neg (by omega : ¬waiting ≠ 0), if_neg hecho]
  · rw [if_neg (by omega : ¬waiting ≠ 0), if_pos hecho]
    constructor <;> split <;> simp

theorem send_framing_checks_witness :
    (sendRecv "id?".toList false "id?\nAB\r>".toList 1 = .error .bufferNotEmpty) ∧
    (sendRecv "id?".toList false "xx\nAB\r>".toList 0 = .error .echoMismatch) ∧
    (sendRecv "id?".toList false "id?\nAB\r>".toList 0 ≠ .error .echoMismatch ∧
      sendRecv "id?".toList false "id?\nAB\r>".toList 0 ≠ .error .bufferNotEmpty) :=
  ⟨(send_framing_checks "id?".toList false "id?\nAB\r>".toList 1).1 (by decide),
   (send_framing_checks "id?".toList false "xx\nAB\r>".toList 0).2.1 rfl (by decide),
   (send_framing_checks "id?".toList false "id?\nAB\r>".toList 0).2.2 rfl (by decide)⟩

/-- C10: the send routine takes its payload only from the segment between
the first and the second newline of the stripped response: when the
response carries no newline after the echoed command the routine fails with
the out-of-range index — which is neither of the two protocol errors — and
any content after a second newline is silently discarded. -/
theorem send_payload_window (cmd p r1 : List Char) (rb : Bool)
    (hc : '\n' ∉ cmd) (hp : '\n' ∉ p) :
    (processResponse cmd rb cmd = .error .indexError ∧
      SendError.indexError ≠ SendError.echoMismatch ∧
      SendError.indexError ≠ SendError.bufferNotEmpty) ∧
    processResponse cmd rb (cmd ++ '\n' :: p ++ '\n' :: r1) =
      processResponse cmd rb (cmd ++ '\n' :: p) ∧
    processResponse cmd rb (cmd ++ '\n' :: p) = .ok (parsePayload rb p) := by
  refine ⟨⟨?_, by decide, by decide⟩, ?_, ?_⟩
  · unfold processResponse
    rw [splitOnChar_of_not_mem hc]
    simp
  · unfold processResponse
    rw [List.append_assoc, List.cons_append,
      splitOnChar_append (p ++ '\n' :: r1) hc, splitOnChar_append r1 hp,
      splitOnChar_append p hc, splitOnChar_of_not_mem hp]
    simp
  · unfold processResponse
    rw [splitOnChar_append p hc, splitOnChar_of_not_mem hp]
    simp

theorem send_payload_window_witness :
    (processResponse "xvoltage?".toList true "xvoltage?".toList
        = .error .indexError) ∧
    processResponse "xvoltage?".toList true
        "xvoltage?\n[1.00]\r\njunk".toList =
      processResponse "xvoltage?".toList true "xvoltage?\n[1.00]\r".toList ∧
    processResponse "xvoltage?".toList true "xvoltage?\n[1.00]\r".toList =
      .ok (parsePayload true "[1.00]\r".toList) :=
  ⟨((send_payload_window "xvoltage?".toList "[1.00]\r".toList "junk".toList true
      (by decide) (by decide)).1).1,
   (send_payload_window "xvoltage?".toList "[1.00]\r".toList "junk".toList true
      (by decide) (by decide)).2.1,
   (send_payload_window "xvoltage?".toList "[1.00]\r".toList "junk".toList true
      (by decide) (by decide)).2.2⟩

/-- C1: with the pending-move drain completing in state s1, a target
voltage below 0 or above the voltage limit makes set_voltage raise the
range assertion before any set command is written to the transport, while
a target within the closed range passes the range check and has its
two-decimal set command written. -/
theorem set_voltage_range_gate (env : ℕ → ℚ) (fuel : ℕ) (v : ℚ) (block : Bool)
    (s s1 : DriverState) (r : Option ℚ)
    (hdrain : finish_set_voltage env fuel s = (true, r, s1)) :
    ((v < 0 ∨ (s.voltage_limit : ℚ) < v) →
      set_voltage env fuel v block s = .assertRange s1 ∧
      s1.sent.filter isSetCmd = s.sent.filter isSetCmd) ∧
    ((0 ≤ v ∧ v ≤ (s.voltage_limit : ℚ)) →
      (set_voltage env fuel v block s).isAssertRange = false ∧
      setCmd v ∈ (set_voltage env fuel v block s).state.sent) := by
  obtain ⟨-, hlim, n, hsent⟩ := finish_frame hdrain
  have hdrained :
      (if s.pending_cmd = none then (true, (none : Option ℚ), s)
        else finish_set_voltage env fuel s) = (true, r, s1) := by
    by_cases hp : s.pending_cmd = none
    · rw [if_pos hp]
      exact (finish_of_no_pending env fuel s hp).symm.trans hdrain
    · rw [if_neg hp]; exact hdrain
  have hsv : set_voltage env fuel v block s =
      (if 0 ≤ v ∧ v ≤ (s1.voltage_limit : ℚ) then
        (if block then
          (if (finish_set_voltage env fuel
                { s1 with sent := s1.sent ++ [setCmd v],
                          pending_cmd := some (setCmd v) }).1 = false then
            SetOutcome.noFuel (finish_set_voltage env fuel
              { s1 with sent := s1.sent ++ [setCmd v],
                        pending_cmd := some (setCmd v) }).2.2
          else
            SetOutcome.ok (finish_set_voltage env fuel
              { s1 with sent := s1.sent ++ [setCmd v],
                        pending_cmd := some (setCmd v) }).2.2)
        else
          SetOutcome.ok
            { s1 with sent := s1.sent ++ [setCmd v],
                      pending_cmd := some (setCmd v) })
      else SetOutcome.assertRange s1) := by
    unfold set_voltage
    rw [hdrained]
    rfl
  constructor
  · intro hout
    have hcond : ¬(0 ≤ v ∧ v ≤ (s1.voltage_limit : ℚ)) := by
      rw [hlim]
      rintro ⟨h1, h2⟩
      rcases hout with h | h
      · exact absurd h1 (not_le.mpr h)
      · exact absurd h2 (not_le.mpr h)
    rw [hsv, if_neg hcond]
    exact ⟨rfl, by rw [hsent, filter_isSetCmd_queries]⟩
  · rintro ⟨h0, h1v⟩
    have hcond : 0 ≤ v ∧ v ≤ (s1.voltage_limit : ℚ) :=
      ⟨h0, by rw [hlim]; exact h1v⟩
    rw [hsv, if_pos hcond]
    cases block
    · exact ⟨rfl, by simp [SetOutcome.state]⟩
    · rcases hfin2 : finish_set_voltage env fuel
          { s1 with sent := s1.sent ++ [setCmd v],
                    pending_cmd := some (setCmd v) }
        with ⟨b3, r3, s3⟩
      obtain ⟨-, -, m, hm⟩ := finish_frame hfin2
      cases b3
      · exact ⟨rfl, by simp [SetOutcome.state, hm]⟩
      · exact ⟨rfl, by simp [SetOutcome.state, hm]⟩

theorem set_voltage_range_gate_witness :
    finish_set_voltage (fun _ => (0 : ℚ)) 1 demoState = (true, none, demoState) ∧
    ((200 : ℚ) < 0 ∨ (demoState.voltage_limit : ℚ) < 200) ∧
    (set_voltage (fun _ => (0 : ℚ)) 1 200 false demoState = .assertRange demoState ∧
      demoState.sent.filter isSetCmd = demoState.sent.filter isSetCmd) :=
  ⟨rfl, Or.inr (by decide),
    (set_voltage_range_gate (fun _ => (0 : ℚ)) 1 200 false demoState demoState
      none rfl).1 (Or.inr (by decide))⟩

/-- C2: starting with no pending move, a non-blocking set_voltage records
its command as the single pending move; a second non-blocking set_voltage
first drains that pending move through the settle-poll loop — the 2k+2
voltage queries appear on the transport before the second set command —
and afterwards the pending marker records the second command, never the
first. -/
theorem set_voltage_at_most_one_pending (env : ℕ → ℚ) (fuel k : ℕ) (a b : ℚ)
    (s0 : DriverState)
    (hp : s0.pending_cmd = none)
    (ha0 : 0 ≤ a) (ha1 : a ≤ (s0.voltage_limit : ℚ))
    (hb0 : 0 ≤ b) (hb1 : b ≤ (s0.voltage_limit : ℚ))
    (hf : k < fuel)
    (hs : env (s0.readIdx + 2 * k) = env (s0.readIdx + 2 * k + 1))
    (hne : ∀ i, i < k → env (s0.readIdx + 2 * i) ≠ env (s0.readIdx + 2 * i + 1)) :
    set_voltage env fuel a false s0 =
      .ok { s0 with sent := s0.sent ++ [setCmd a],
                    pending_cmd := some (setCmd a) } ∧
    (set_voltage env fuel a false s0).state.pending_cmd = some (setCmd a) ∧
    (set_voltage env fuel b false
        (set_voltage env fuel a false s0).state).isOk = true ∧
    (set_voltage env fuel b false
        (set_voltage env fuel a false s0).state).state.pending_cmd
      = some (setCmd b) ∧
    (set_voltage env fuel b false
        (set_voltage env fuel a false s0).state).state.sent
      = s0.sent ++ [setCmd a] ++ List.replicate (2 * k + 2) xvoltageQuery
          ++ [setCmd b] ∧
    (setCmd a = setCmd b ∨
      (set_voltage env fuel b false
          (set_voltage env fuel a false s0).state).state.pending_cmd
        ≠ some (setCmd a)) := by
  have hdrained0 :
      (if s0.pending_cmd = none then (true, (none : Option ℚ), s0)
        else finish_set_voltage env fuel s0) = (true, none, s0) := by
    rw [if_pos hp]
  have h1 : set_voltage env fuel a false s0 =
      .ok { s0 with sent := s0.sent ++ [setCmd a],
                    pending_cmd := some (setCmd a) } := by
    unfold set_voltage
    rw [hdrained0]
    dsimp only
    rw [if_pos (⟨ha0, ha1⟩ : 0 ≤ a ∧ a ≤ ((s0.voltage_limit : ℤ) : ℚ))]
    rfl
  have hfin1 : finish_set_voltage env fuel
      { s0 with sent := s0.sent ++ [setCmd a], pending_cmd := some (setCmd a) } =
      (true, none,
       { s0 with voltage := env (s0.readIdx + 2 * k + 1),
                 pending_cmd := none,
                 readIdx := s0.readIdx + 2 * k + 2,
                 sent := (s0.sent ++ [setCmd a])
                   ++ List.replicate (2 * k + 2) xvoltageQuery,
                 slept := s0.slept + (k + 1) }) := by
    exact finish_of_settling env fuel k _ (setCmd a) rfl hf hs hne
  have hpend1 : ¬({ s0 with sent := s0.sent ++ [setCmd a], pending_cmd := some (setCmd a) } : DriverState).pending_cmd = none := by simp
  have h2 : set_voltage env fuel b false
      { s0 with sent := s0.sent ++ [setCmd a], pending_cmd := some (setCmd a) } =
      .ok { s0 with voltage := env (s0.readIdx + 2 * k + 1),
                    pending_cmd := some (setCmd b),
                    readIdx := s0.readIdx + 2 * k + 2,
                    sent := ((s0.sent ++ [setCmd a])
                      ++ List.replicate (2 * k + 2) xvoltageQuery) ++ [setCmd b],
                    slept := s0.slept + (k + 1) } := by
    unfold set_voltage
    rw [if_neg hpend1, hfin1]
    dsimp only
    have hcond2 : 0 ≤ b ∧ b ≤ ((s0.voltage_limit : ℤ) : ℚ) := ⟨hb0, hb1⟩
    rw [if_pos hcond2]
    rfl
  refine ⟨h1, by rw [h1]; rfl, ?_, ?_, ?_, ?_⟩
  · rw [h1]
    show (set_voltage env fuel b false
      { s0 with sent := s0.sent ++ [setCmd a],
                pending_cmd := some (setCmd a) }).isOk = true
    rw [h2]
    rfl
  · rw [h1]
    show (set_voltage env fuel b false
      { s0 with sent := s0.sent ++ [setCmd a],
                pending_cmd := some (setCmd a) }).state.pending_cmd
      = some (setCmd b)
    rw [h2]
    rfl
  · rw [h1]
    show (set_voltage env fuel b false
      { s0 with sent := s0.sent ++ [setCmd a],
                pending_cmd := some (setCmd a) }).state.sent
      = s0.sent ++ [setCmd a] ++ List.replicate (2 * k + 2) xvoltageQuery
          ++ [setCmd b]
    rw [h2]
    rfl
  · by_cases hab : setCmd a = setCmd b
    · exact Or.inl hab
    · right
      rw [h1]
      show (set_voltage env fuel b false
        { s0 with sent := s0.sent ++ [setCmd a],
                  pending_cmd := some (setCmd a) }).state.pending_cmd
        ≠ some (setCmd a)
      rw [h2]
      intro hcon
      exact hab (Option.some.inj hcon).symm

theorem set_voltage_at_most_one_pending_witness :
    demoState.pending_cmd = none ∧ (0 : ℕ) < 1 ∧
    (set_voltage (fun _ => 0) 1 2 false
        (set_voltage (fun _ => 0) 1 1 false demoState).state).state.pending_cmd
      = some (setCmd 2) ∧
    (set_voltage (fun _ => 0) 1 2 false
        (set_voltage (fun _ => 0) 1 1 false demoState).state).state.sent
      = demoState.sent ++ [setCmd 1] ++ List.replicate 2 xvoltageQuery
          ++ [setCmd 2] := by
  have h := set_voltage_at_most_one_pending (fun _ => 0) 1 0 1 2 demoState rfl
    (by decide) (by decide) (by decide) (by decide) (by decide) rfl
    (fun i hi => absurd hi (Nat.not_lt_zero i))
  exact ⟨rfl, by decide, h.2.2.2.1, h.2.2.2.2.1⟩

/-- C4: during connect against a device whose reset and identity replies
conform, a voltage limit reply parsing to a value outside the enumerated
set 75, 100, 150 makes construction fail with the limit-check error and no
usable Session is returned. -/
theorem vlimit_gate (v x : List (List Char)) (v0 : List Char) (n : ℤ)
    (hv : v[0]? = some v0) (hn : parseIntStr v0 = some n)
    (hbad : ¬(n = 75 ∨ n = 100 ∨ n = 150)) :
    initUsable (controllerInit true restoreOk idOk v x).1 = false ∧
    (controllerInit true restoreOk idOk v x).1 = .error .vlimitNotAllowed ∧
    (controllerInit true restoreOk idOk v x).2 = .opened := by
  have hkey : controllerInit true restoreOk idOk v x =
      (.error .vlimitNotAllowed, .opened) := by
    unfold controllerInit
    rw [hv]
    show (match parseIntStr v0 with
          | none => (Except.error InitError.valueError, PortStatus.opened)
          | some lim =>
            if lim = 75 ∨ lim = 100 ∨ lim = 150 then
              (match x[0]? with
               | none => (Except.error InitError.indexError, PortStatus.opened)
               | some x0 =>
                 match parseFloat x0 with
                 | none => (Except.error InitError.valueError, PortStatus.opened)
                 | some volt => (Except.ok ⟨lim, volt, none⟩, PortStatus.opened))
            else (Except.error InitError.vlimitNotAllowed, PortStatus.opened)) =
        ((Except.error InitError.vlimitNotAllowed : Except InitError Session),
          PortStatus.opened)
    rw [hn]
    show (if n = 75 ∨ n = 100 ∨ n = 150 then
          (match x[0]? with
           | none => (Except.error InitError.indexError, PortStatus.opened)
           | some x0 =>
             match parseFloat x0 with
             | none => (Except.error InitError.valueError, PortStatus.opened)
             | some volt => (Except.ok ⟨n, volt, none⟩, PortStatus.opened))
          else (Except.error InitError.vlimitNotAllowed, PortStatus.opened)) =
        ((Except.error InitError.vlimitNotAllowed : Except InitError Session),
          PortStatus.opened)
    rw [if_neg hbad]
  rw [hkey]
  exact ⟨rfl, rfl, rfl⟩

theorem vlimit_gate_witness :
    (["200".toList] : List (List Char))[0]? = some "200".toList ∧
    parseIntStr "200".toList = some 200 ∧
    initUsable
        (controllerInit true restoreOk idOk ["200".toList] ["0.00".toList]).1
      = false ∧
    (controllerInit true restoreOk idOk ["200".toList] ["0.00".toList]).1
      = .error .vlimitNotAllowed :=
  ⟨rfl, by decide,
   (vlimit_gate ["200".toList] ["0.00".toList] "200".toList 200 rfl
     (by decide) (by decide)).1,
   (vlimit_gate ["200".toList] ["0.00".toList] "200".toList 200 rfl
     (by decide) (by decide)).2.1⟩

/-- C5 (amended): once the serial port has opened, __init__ leaves the port
handle open on every path — a failed verification aborts construction but
does not close the transport; only an explicit close releases it. When the
port itself fails to open, no transport was acquired. -/
theorem init_port_state (r i v x : List (List Char)) :
    (controllerInit true r i v x).2 = .opened ∧
    (controllerInit false r i v x).2 = .closed := by
  constructor
  · unfold controllerInit
    repeat' split
    all_goals first | rfl | simp_all
  · rfl

/-- C5 counterexample: a connect whose restore verification fails aborts
construction with the transport left open, not closed. -/
theorem init_leak_cex :
    initUsable (controllerInit true ["garbage".toList] [] [] []).1 = false ∧
    (controllerInit true ["garbage".toList] [] [] []).2 = .opened ∧
    PortStatus.opened ≠ PortStatus.closed :=
  ⟨by decide, by decide, by decide⟩

/-- C9: the Transport Framer offers the delimiter strategy and the
fixed-length byte-count strategy, committed to at construction through the
Framing parameter of sendVia; against a conforming device that echoes the
command, sends the payload and one terminal prompt, both strategies return
the same structured response. -/
theorem framing_strategies_agree (cmd payload : List Char) (rb : Bool)
    (hc1 : '>' ∉ cmd) (hc2 : '\n' ∉ cmd)
    (hp1 : '>' ∉ payload) (hp2 : '\n' ∉ payload) :
    sendVia .delimiter cmd rb (cmd ++ '\n' :: payload ++ ['>']).length
        (cmd ++ '\n' :: payload ++ ['>']) =
      sendVia .fixedLength cmd rb (cmd ++ '\n' :: payload ++ ['>']).length
        (cmd ++ '\n' :: payload ++ ['>']) ∧
    sendVia .delimiter cmd rb (cmd ++ '\n' :: payload ++ ['>']).length
        (cmd ++ '\n' :: payload ++ ['>']) = .ok (parsePayload rb payload) := by
  have hgt : '>' ∉ cmd ++ '\n' :: payload := by
    intro h
    rcases List.mem_append.mp h with h | h
    · exact hc1 h
    · rcases List.mem_cons.mp h with h | h
      · exact absurd h (by decide)
      · exact hp1 h
  have hd : sendDelim cmd rb ((cmd ++ '\n' :: payload) ++ ['>']) =
      .ok (parsePayload rb payload) := by
    unfold sendDelim
    rw [readUntilGt_append [] hgt]
    show sendRecv cmd rb ((cmd ++ '\n' :: payload) ++ ['>']) 0 =
      Except.ok (parsePayload rb payload)
    unfold sendRecv
    rw [if_neg (by simp : ¬(0 : ℕ) ≠ 0)]
    rw [rstripChar_append '>' (cmd ++ '\n' :: payload), rstripChar_of_not_mem hgt]
    unfold processResponse
    rw [splitOnChar_append payload hc2, splitOnChar_of_not_mem hp2]
    simp
  have hfx : sendFixed cmd rb ((cmd ++ '\n' :: payload) ++ ['>']).length
      ((cmd ++ '\n' :: payload) ++ ['>']) = .ok (parsePayload rb payload) := by
    unfold sendFixed
    rw [List.take_length, List.drop_length]
    rw [if_neg (by simp : ¬([] : List Char).length ≠ 0)]
    rw [rstripChar_append '>' (cmd ++ '\n' :: payload), rstripChar_of_not_mem hgt]
    rw [splitOnChar_append payload hc2, splitOnChar_of_not_mem hp2]
    simp
  exact ⟨hd.trans hfx.symm, hd⟩

theorem framing_strategies_agree_witness :
    ('>' ∉ "id?".toList) ∧ ('\n' ∉ "id?".toList) ∧
    sendVia .delimiter "id?".toList false
        ("id?".toList ++ '\n' :: "AB\rCD".toList ++ ['>']).length
        ("id?".toList ++ '\n' :: "AB\rCD".toList ++ ['>']) =
      sendVia .fixedLength "id?".toList false
        ("id?".toList ++ '\n' :: "AB\rCD".toList ++ ['>']).length
        ("id?".toList ++ '\n' :: "AB\rCD".toList ++ ['>']) ∧
    sendVia .delimiter "id?".toList false
        ("id?".toList ++ '\n' :: "AB\rCD".toList ++ ['>']).length
        ("id?".toList ++ '\n' :: "AB\rCD".toList ++ ['>']) =
      .ok (parsePayload false "AB\rCD".toList) :=
  ⟨by decide, by decide,
   (framing_strategies_agree "id?".toList "AB\rCD".toList false
     (by decide) (by decide) (by decide) (by decide)).1,
   (framing_strategies_agree "id?".toList "AB\rCD".toList false
     (by decide) (by decide) (by decide) (by decide)).2⟩

end MDT694B
